import Mathlib

/-!
Verification development for the Password-Strength-Analyzer repository.

The core logic lives in `main.py`; every definition below is a shallow
embedding of the corresponding Python function, translated statement by
statement.  Strings are modelled as `List Char`; Python `set`s of strings
are modelled as `List (List Char)` (membership/iteration is all the code
uses, and the boolean results do not depend on order or duplicates).
Character classes (`str.islower`, `str.isupper`, `str.isdigit`, `[a-z]`,
`[A-Z]`, `[0-9]`, `str.lower`) are modelled at the ASCII code points the
regexes and tables in the source name explicitly.  Floating point numbers
are modelled as exact rationals; the one crack-time value the code derives
from `math.log2` (the entropy fallback) is kept symbolic as the pair of
exact arguments `(length, charsetSize)` that determine it, and
`math.log2 0` raising `ValueError: math domain error` is modelled as an
explicit error value.
-/

namespace PSA

/-- Decidable equality for `Except`, needed to evaluate the embedded
functions with `decide`. -/
instance instDecEqExcept {e a : Type} [DecidableEq e] [DecidableEq a] :
    DecidableEq (Except e a) := fun x y =>
  match x, y with
  | Except.ok u, Except.ok v =>
      if h : u = v then isTrue (by rw [h])
      else isFalse (by intro hc; cases hc; exact h rfl)
  | Except.error u, Except.error v =>
      if h : u = v then isTrue (by rw [h])
      else isFalse (by intro hc; cases hc; exact h rfl)
  | Except.ok _, Except.error _ => isFalse (by intro hc; cases hc)
  | Except.error _, Except.ok _ => isFalse (by intro hc; cases hc)

/-- Character class `[0-9]` (Python `[0-9]` in the regexes; also the model
of `str.isdigit` for the ASCII inputs the analyzer handles). -/
def isDigitChar (c : Char) : Bool := decide (48 ≤ c.toNat) && decide (c.toNat ≤ 57)

/-- Character class `[a-z]` (code points 97–122), the model of
`str.islower` and of the regex class `[a-z]` on ASCII input. -/
def isLowerAlpha (c : Char) : Bool := decide (97 ≤ c.toNat) && decide (c.toNat ≤ 122)

/-- Character class `[A-Z]` (code points 65–90), the model of
`str.isupper` and of the regex class `[A-Z]` on ASCII input. -/
def isUpperAlpha (c : Char) : Bool := decide (65 ≤ c.toNat) && decide (c.toNat ≤ 90)

/-- Model of `str.lower` on one character: an ASCII uppercase letter is
shifted down into `[a-z]`, any other character is unchanged. -/
def lowerChar (c : Char) : Char :=
  if isUpperAlpha c then Char.ofNat (c.toNat + 32) else c

/-- The substitution table of `normalizeLeetspeak` in `main.py`, in the
insertion order of the Python dict:
`{0→o, 1→i, 3→e, 4→a, 5→s, 7→t, @→a, $→s}`. -/
def substitutions : List (Char × Char) :=
  [('0', 'o'), ('1', 'i'), ('3', 'e'), ('4', 'a'), ('5', 's'), ('7', 't'),
   ('@', 'a'), ('$', 's')]

/-- Model of `password.replace(leet, normal)` for a single-character
pattern: every occurrence of `a` is replaced by `b`. -/
def replaceAll (a b : Char) (s : List Char) : List Char :=
  s.map (fun c => if c = a then b else c)

/-- Embedding of `normalizeLeetspeak`: apply each substitution of the
table in order over the whole string, then lowercase the result. -/
def normalizeLeetspeak (password : List Char) : List Char :=
  (substitutions.foldl (fun acc p => replaceAll p.1 p.2 acc) password).map lowerChar

/-- Whether `t` occurs at the start of `s` (helper for the substring
test `word in password`). -/
def beginsWith : List Char → List Char → Bool
  | [], _ => true
  | _ :: _, [] => false
  | a :: as, b :: bs => a == b && beginsWith as bs

/-- Model of the Python substring test `w in s`: `w` occurs contiguously
somewhere in `s` (the empty string occurs in every string). -/
def occursIn (w : List Char) : List Char → Bool
  | [] => beginsWith w []
  | c :: rest => beginsWith w (c :: rest) || occursIn w rest

/-- Embedding of `containsDictionaryWord`: normalize the password, then
test whether any wordlist entry of length at least 4 occurs as a
contiguous substring of the normalized password. -/
def containsDictionaryWord (password : List Char) (wordlist : List (List Char)) : Bool :=
  let p := normalizeLeetspeak password
  wordlist.any (fun word => decide (4 ≤ word.length) && occursIn word p)

/-- Embedding of `isCommonPassword`: normalize the password and test
exact membership of the normalized form in the common-password set. -/
def isCommonPassword (password : List Char) (commonPasswords : List (List Char)) : Bool :=
  commonPasswords.contains (normalizeLeetspeak password)

/-- The fixed special-character set of `getCharsetSize`, written by code
point to match the Python literal string of 31 characters
(exclamation through tilde, including braces, quote characters and
backquote). -/
def specialChars : List Char :=
  [33, 64, 35, 36, 37, 94, 38, 42, 40, 41, 45, 95, 61, 43, 91, 93, 123, 125,
   124, 59, 58, 39, 34, 44, 46, 60, 62, 63, 47, 96, 126].map Char.ofNat

/-- Embedding of `getCharsetSize`: add a fixed weight for each character
class present anywhere in the raw password. -/
def getCharsetSize (password : List Char) : Nat :=
  (if password.any isLowerAlpha then 26 else 0) +
  (if password.any isUpperAlpha then 26 else 0) +
  (if password.any isDigitChar then 10 else 0) +
  (if password.any (fun c => specialChars.contains c) then 32 else 0)

/-- The error raised by `math.log2 0` in Python (`ValueError: math domain
error`). -/
inductive MathError where
  | domainError
deriving DecidableEq

/-- Embedding of `getEntropy`.  The Python function computes the float
`len(password) * math.log2(charsetSize)` and returns it together with
`charsetSize`; when `charsetSize` is `0` the call `math.log2(0)` raises a
math domain error, modelled here as `Except.error`.  The float entropy is
represented by the exact pair `(length, charsetSize)` that determines it
(`bits = length * log2 charsetSize`), since floating point values are not
modelled. -/
def getEntropy (password : List Char) : Except MathError (Nat × Nat) :=
  let charsetSize := getCharsetSize password
  if charsetSize = 0 then Except.error MathError.domainError
  else Except.ok (password.length, charsetSize)

/-- The character class `[!@#$%^&*]` of the low-entropy-suffix regex in
`modernCrackTime`. -/
def sfxSpecials : List Char := ['!', '@', '#', '$', '%', '^', '&', '*']

/-- One alternative of the regex `(123|[!@#$%^&*]+|[0-9]{1,4})` matching
a whole candidate string: the literal `123`, a nonempty run of the eight
special characters, or a run of one to four decimal digits. -/
def lowSfxAlt (t : List Char) : Bool :=
  t == ['1', '2', '3'] ||
  (!t.isEmpty && t.all (fun c => sfxSpecials.contains c)) ||
  (decide (1 ≤ t.length) && decide (t.length ≤ 4) && t.all isDigitChar)

/-- Model of `re.search(pattern + "$", s)` as a boolean: some suffix of
`s` matches one alternative, where, per Python semantics of `$` (without
`re.MULTILINE`), the match may also end immediately before a newline that
terminates the string. -/
def searchEndAnchor (alt : List Char → Bool) (s : List Char) : Bool :=
  s.tails.any alt ||
  (s.getLast? == some (Char.ofNat 10) && (s.dropLast).tails.any alt)

/-- The eight weak keywords of the regex
`(qwerty|asdf|zxcv|pass|love|god|admin|user)` in `modernCrackTime`. -/
def weakKeywords : List (List Char) :=
  [("qwerty").data, ("asdf").data, ("zxcv").data, ("pass").data,
   ("love").data, ("god").data, ("admin").data, ("user").data]

/-- Model of `re.search` for the weak-keyword regex: some keyword occurs
as a contiguous substring. -/
def weakKeywordMatch (s : List Char) : Bool :=
  weakKeywords.any (fun w => occursIn w s)

/-- Whether the regex `(19[0-9]{2}|20[0-4][0-9])` matches at the start of
the given string. -/
def yearTokenAt : List Char → Bool
  | '1' :: '9' :: a :: b :: _ => isDigitChar a && isDigitChar b
  | '2' :: '0' :: a :: b :: _ =>
      decide (48 ≤ a.toNat) && decide (a.toNat ≤ 52) && isDigitChar b
  | _ => false

/-- Model of `re.search(r"(19[0-9]{2}|20[0-4][0-9])", s)`: the year
pattern matches starting at some position of `s`. -/
def yearSearch (s : List Char) : Bool := s.tails.any yearTokenAt

/-- Whether some split of `s` into two contiguous pieces satisfies `p`. -/
def splitsAny (s : List Char) (p : List Char → List Char → Bool) : Bool :=
  (List.range (s.length + 1)).any (fun k => p (s.take k) (s.drop k))

/-- Model of `re.fullmatch(r"[a-z]{4,}\d{2,4}", s)`: `s` is at least four
lowercase letters followed by two to four digits. -/
def lowersThenDigits (s : List Char) : Bool :=
  splitsAny s (fun a d =>
    decide (4 ≤ a.length) && a.all isLowerAlpha &&
    decide (2 ≤ d.length) && decide (d.length ≤ 4) && d.all isDigitChar)

/-- Model of `re.fullmatch(r"[a-z]{4,}[A-Z]{1}[a-z]*\d{1,4}", s)`: the
`WordWordNumber` shape tested on the raw password. -/
def wordWordNumber (s : List Char) : Bool :=
  splitsAny s (fun a rest =>
    decide (4 ≤ a.length) && a.all isLowerAlpha &&
    (match rest with
     | [] => false
     | u :: rest2 =>
        isUpperAlpha u && splitsAny rest2 (fun b d =>
          b.all isLowerAlpha && decide (1 ≤ d.length) &&
          decide (d.length ≤ 4) && d.all isDigitChar)))

/-- Result values of `modernCrackTime`.  The constant branches return
exact numeric constants; the final branch returns
`classicalCrackTime(entropy, 1e10)` where `entropy` is the float
`length * log2 charsetSize` — that value is kept symbolic as its exact
arguments, since floating point is not modelled. -/
inductive MTime where
  | val : ℚ → MTime
  | entropyFallback : Nat → Nat → MTime
deriving DecidableEq

/-- Embedding of `modernCrackTime` from `main.py`, branch for branch in
source order.  The bare `return` in the weak-keyword branch returns
Python `None`, modelled as `Except.ok none`; the fallback branch first
calls `getEntropy`, whose math-domain error propagates. -/
def modernCrackTime (password : List Char)
    (commonPasswords dictionaryWords : List (List Char)) :
    Except MathError (Option MTime) :=
  let normalized := normalizeLeetspeak password
  if commonPasswords.contains normalized then
    Except.ok (some (MTime.val (1 / 2)))
  else if containsDictionaryWord password dictionaryWords then
    (if searchEndAnchor lowSfxAlt password then Except.ok (some (MTime.val 30))
     else Except.ok (some (MTime.val 90)))
  else if weakKeywordMatch normalized then
    Except.ok none
  else if yearSearch password then
    Except.ok (some (MTime.val 45))
  else if lowersThenDigits normalized then
    Except.ok (some (MTime.val 60))
  else if wordWordNumber password then
    Except.ok (some (MTime.val 120))
  else
    match getEntropy password with
    | Except.error e => Except.error e
    | Except.ok p => Except.ok (some (MTime.entropyFallback p.1 p.2))

/-- Left-pad a decimal digit string with zeros up to width `d` (helper
for fixed-point rendering). -/
def padLeftZeros (s : String) (d : Nat) : String :=
  String.mk (List.replicate (d - s.length) '0') ++ s

/-- Round a rational to the nearest integer, ties to even — the rounding
Python uses when formatting a float with a fixed number of decimals. -/
def roundHalfEven (q : ℚ) : Int :=
  let f := Rat.floor q
  if q - f < 1 / 2 then f
  else if (1 : ℚ) / 2 < q - f then f + 1
  else if f % 2 = 0 then f else f + 1

/-- Render a nonnegative scaled integer `n` as a decimal with `d` digits
after the point. -/
def formatFixedNat (n : Nat) (d : Nat) : String :=
  if d = 0 then toString n
  else toString (n / 10 ^ d) ++ "." ++ padLeftZeros (toString (n % 10 ^ d)) d

/-- Model of the Python f-string fixed-point format `{q:.df}`. -/
def formatFixed (q : ℚ) (d : Nat) : String :=
  if q < 0 then "-" ++ formatFixedNat (roundHalfEven (-q * 10 ^ d)).toNat d
  else formatFixedNat (roundHalfEven (q * 10 ^ d)).toNat d

/-- The unit table of `timeFormat`. -/
def units : List String :=
  ["seconds", "minutes", "hours", "days", "years", "centuries"]

/-- The factor chain of `timeFormat`. -/
def factors : List ℚ := [60, 60, 24, 365, 100]

/-- The while loop of `timeFormat`:
`while i < len(factors) and seconds >= factors[i]: seconds /= factors[i]; i += 1`.
The index `i` advances in lockstep with the traversal of the factor list
starting from its head, so consuming the list is exactly the bound
`i < len(factors)`. -/
def timeLoop : ℚ → List ℚ → Nat → ℚ × Nat
  | s, [], i => (s, i)
  | s, f :: fs, i => if f ≤ s then timeLoop (s / f) fs (i + 1) else (s, i)

/-- Embedding of `timeFormat`.  The final `units[i]` lookup is modelled
as an optional lookup, with `none` standing for the `IndexError` Python
would raise were `i` ever out of range. -/
def timeFormat (seconds : ℚ) : Option String :=
  if seconds < 4 then some (formatFixed seconds 4 ++ " seconds")
  else
    match units[(timeLoop seconds factors 0).2]? with
    | some u => some (formatFixed (timeLoop seconds factors 0).1 2 ++ " " ++ u)
    | none => none

/-- The per-character effect of the substitution pass of
`normalizeLeetspeak` (each `replace` maps characters independently, so
the sequential passes compose to this per-character fold). -/
def substChar (c : Char) : Char :=
  substitutions.foldl (fun x p => if x = p.1 then p.2 else x) c

/-- The per-character effect of the whole of `normalizeLeetspeak`:
substitute, then lowercase. -/
def normChar (c : Char) : Char := lowerChar (substChar c)

/-- The eight substituted characters of the leetspeak table. -/
def leetKeys : List Char := ['0', '1', '3', '4', '5', '7', '@', '$']

/-- Modelled from the spec for claim C4, which reads the low-entropy
condition as "the raw password ends in a low-entropy suffix (literal
123, a trailing run of 1–4 digits, or a trailing run of special
characters)": some suffix of the raw password itself matches one of the
three alternatives.  Unlike the source regex search with `$`, this does
not also accept a match ending immediately before a trailing newline. -/
def claimEndsInLowEntropySfx (s : List Char) : Bool := s.tails.any lowSfxAlt

/-- Concrete counterexample password for C4: "love1" followed by a
newline character. -/
def pwNl : List Char := ['l', 'o', 'v', 'e', '1', Char.ofNat 10]

/-- Dictionary wordlist holding just the word "love". -/
def loveList : List (List Char) := [("love").data]

/-- Modelled from the spec for claim C8: the factor chain with the unit
reached after dividing by each factor. -/
def specFactorChain : List (ℚ × String) :=
  [(60, "minutes"), (60, "hours"), (24, "days"), (365, "years"), (100, "centuries")]

/-- Modelled from the spec for claim C8: repeatedly divide by the factor
chain, stopping at the first unit whose divisor exceeds the remaining
value, or after exhausting the chain. -/
def specScale : ℚ → String → List (ℚ × String) → ℚ × String
  | s, u, [] => (s, u)
  | s, u, fu :: rest => if s < fu.1 then (s, u) else specScale (s / fu.1) fu.2 rest

/-- Modelled from the spec for claim C8: if seconds < 4 render with 4
decimal places and unit "seconds"; otherwise scale through the factor
chain and render with 2 decimal places and the matched unit name. -/
def timeFormatSpec (seconds : ℚ) : String :=
  if seconds < 4 then formatFixed seconds 4 ++ " seconds"
  else
    (fun r => formatFixed r.1 2 ++ " " ++ r.2)
      (specScale seconds ("seconds") specFactorChain)

/-! Helper lemmas about characters and normalization. -/

lemma toNat_ofNat_valid {n : Nat} (h : n.isValidChar) : (Char.ofNat n).toNat = n := by
  unfold Char.ofNat
  rw [dif_pos h]
  rfl

lemma char_ne_of_toNat_ne {a b : Char} (h : a.toNat ≠ b.toNat) : a ≠ b :=
  fun he => h (by rw [he])

lemma replaceAll_cons (a b c : Char) (cs : List Char) :
    replaceAll a b (c :: cs) = (if c = a then b else c) :: replaceAll a b cs := rfl

lemma foldl_replace_cons (l : List (Char × Char)) (c : Char) (cs : List Char) :
    l.foldl (fun acc p => replaceAll p.1 p.2 acc) (c :: cs) =
      (l.foldl (fun x p => if x = p.1 then p.2 else x) c) ::
        l.foldl (fun acc p => replaceAll p.1 p.2 acc) cs := by
  induction l generalizing c cs with
  | nil => rfl
  | cons p l ih =>
      simp only [List.foldl_cons, replaceAll_cons, ih]

lemma normalize_cons (c : Char) (cs : List Char) :
    normalizeLeetspeak (c :: cs) = normChar c :: normalizeLeetspeak cs := by
  unfold normalizeLeetspeak normChar substChar
  rw [foldl_replace_cons, List.map_cons]

lemma normalize_nil : normalizeLeetspeak [] = [] := rfl

lemma normalize_eq_map (s : List Char) : normalizeLeetspeak s = s.map normChar := by
  induction s with
  | nil => rw [normalize_nil, List.map_nil]
  | cons c cs ih => rw [normalize_cons, ih, List.map_cons]

lemma substChar_of_not_mem (c : Char) (h : ¬ c ∈ leetKeys) : substChar c = c := by
  simp only [leetKeys, List.mem_cons, List.not_mem_nil, or_false, not_or] at h
  obtain ⟨h0, h1, h3, h4, h5, h7, ha, hd⟩ := h
  simp [substChar, substitutions, h0, h1, h3, h4, h5, h7, ha, hd]

lemma lowerChar_of_not_upper (c : Char) (h : isUpperAlpha c = false) : lowerChar c = c := by
  simp [lowerChar, h]

lemma toNat_lowerChar_of_upper (c : Char) (h : isUpperAlpha c = true) :
    (lowerChar c).toNat = c.toNat + 32 := by
  simp only [isUpperAlpha, Bool.and_eq_true, decide_eq_true_eq] at h
  rw [lowerChar, if_pos]
  · exact toNat_ofNat_valid (Or.inl (by omega))
  · simp [isUpperAlpha]
    omega

lemma isUpperAlpha_lowerChar (c : Char) : isUpperAlpha (lowerChar c) = false := by
  by_cases h : isUpperAlpha c = true
  · have ht := toNat_lowerChar_of_upper c h
    simp only [isUpperAlpha, Bool.and_eq_true, decide_eq_true_eq] at h
    simp only [isUpperAlpha, Bool.and_eq_false_iff, decide_eq_false_iff_not]
    rw [ht]
    omega
  · simp only [Bool.not_eq_true] at h
    rw [lowerChar_of_not_upper c h]
    exact h

lemma keys_toNat_le : ∀ k ∈ leetKeys, k.toNat ≤ 64 := by decide

lemma normChar_not_upper (c : Char) : isUpperAlpha (normChar c) = false :=
  isUpperAlpha_lowerChar _

lemma normChar_not_key (c : Char) : ∀ k ∈ leetKeys, normChar c ≠ k := by
  by_cases h : c ∈ leetKeys
  · fin_cases h <;> decide
  · have hs := substChar_of_not_mem c h
    unfold normChar
    rw [hs]
    by_cases hu : isUpperAlpha c = true
    · have ht := toNat_lowerChar_of_upper c hu
      simp only [isUpperAlpha, Bool.and_eq_true, decide_eq_true_eq] at hu
      intro k hk
      have hkn := keys_toNat_le k hk
      apply char_ne_of_toNat_ne
      rw [ht]
      omega
    · simp only [Bool.not_eq_true] at hu
      rw [lowerChar_of_not_upper c hu]
      intro k hk heq
      exact h (heq ▸ hk)

lemma normChar_idem (c : Char) : normChar (normChar c) = normChar c := by
  have h1 : ∀ k ∈ leetKeys, normChar c ≠ k := normChar_not_key c
  have h2 : substChar (normChar c) = normChar c :=
    substChar_of_not_mem _ (fun hm => h1 _ hm rfl)
  have h3 : lowerChar (normChar c) = normChar c :=
    lowerChar_of_not_upper _ (normChar_not_upper c)
  calc normChar (normChar c) = lowerChar (substChar (normChar c)) := rfl
    _ = lowerChar (normChar c) := by rw [h2]
    _ = normChar c := h3

lemma normalize_idem (s : List Char) :
    normalizeLeetspeak (normalizeLeetspeak s) = normalizeLeetspeak s := by
  induction s with
  | nil => rw [normalize_nil, normalize_nil]
  | cons c cs ih => rw [normalize_cons, normalize_cons, ih, normChar_idem]

lemma timeLoop_snd_le (fs : List ℚ) : ∀ (s : ℚ) (i : Nat),
    (timeLoop s fs i).2 ≤ i + fs.length := by
  induction fs with
  | nil =>
      intro s i
      simp [timeLoop]
  | cons f fs ih =>
      intro s i
      simp only [timeLoop, List.length_cons]
      split
      · exact (ih _ _).trans (by omega)
      · simp

/-! Claim theorems. -/

/-- C1: the claim asserts that analyzing "password123" against a
common-password set containing the entry "password123" classifies it as
a common password and makes `modernCrackTime` return 0.5.  The code
instead normalizes the password first — "password123" becomes
"passwordi2e" — and looks the NORMALIZED form up in the raw set, so the
exact entry "password123" is never matched: `isCommonPassword` returns
false and `modernCrackTime` falls through to the weak-keyword branch
("pass" occurs in "passwordi2e"), returning Python `None`. -/
theorem c1_password123_not_matched :
    isCommonPassword (("password123").data) [(("password123").data)] = false ∧
    normalizeLeetspeak (("password123").data) = ("passwordi2e").data ∧
    modernCrackTime (("password123").data) [(("password123").data)] [] =
      Except.ok none := by
  refine ⟨by decide, by decide, by decide⟩

/-- C2: the claim (and the spec) require `getEntropy` to return a
guarded zero-entropy result when the charset size is 0; the code instead
calls `math.log2(0)`, which raises a math domain error that propagates.
Evaluated on the empty password and on a password of one space (no
recognized character class), the embedded code yields the error value. -/
theorem c2_zero_charset_raises :
    getCharsetSize [] = 0 ∧
    getEntropy [] = Except.error MathError.domainError ∧
    getCharsetSize [' '] = 0 ∧
    getEntropy [' '] = Except.error MathError.domainError := by
  refine ⟨by decide, by decide, by decide, by decide⟩

/-- C3: for every password that is not a common-password match and
contains no dictionary word but whose normalized form matches the
weak-keyword regex, `modernCrackTime` returns no numeric value — the
bare `return` yields Python `None`, modelled as `Except.ok none`,
distinct by construction from every numeric `Except.ok (some _)`
result. -/
theorem c3_weak_keyword_returns_none (p : List Char) (c d : List (List Char))
    (h1 : isCommonPassword p c = false)
    (h2 : containsDictionaryWord p d = false)
    (h3 : weakKeywordMatch (normalizeLeetspeak p) = true) :
    modernCrackTime p c d = Except.ok none := by
  unfold isCommonPassword at h1
  have h1m : normalizeLeetspeak p ∉ c := by simpa using h1
  unfold modernCrackTime
  simp [h1m, h2, h3]

/-- Witness for C3 at the concrete input "qwerty" with empty wordlists. -/
theorem c3_weak_keyword_witness :
    modernCrackTime (("qwerty").data) [] [] = Except.ok none :=
  c3_weak_keyword_returns_none (("qwerty").data) [] [] (by decide) (by decide)
    (by decide)

/-- C4 counterexample: the claim says `modernCrackTime` returns 90 when
the raw password does NOT end in a low-entropy suffix.  For the password
"love1" followed by a newline, with a dictionary containing "love" and
an empty common list, the raw password ends in a newline — none of the
claim's three suffix forms — yet the code returns 30, because Python's
`$` also matches immediately before a trailing newline, so the regex
finds the digit run "1" there. -/
theorem c4_counterexample :
    isCommonPassword pwNl [] = false ∧
    containsDictionaryWord pwNl loveList = true ∧
    claimEndsInLowEntropySfx pwNl = false ∧
    modernCrackTime pwNl [] loveList = Except.ok (some (MTime.val 30)) := by
  refine ⟨by decide, by decide, by decide, by decide⟩

/-- C4 amended: for every password that is not a common-password match
but contains a dictionary word, `modernCrackTime` returns 30 when the
end-anchored low-entropy-suffix search succeeds on the raw password
(which, per Python `$` semantics, also accepts a suffix ending
immediately before a trailing newline) and 90 otherwise. -/
theorem c4_dictionary_suffix_buckets (p : List Char) (c d : List (List Char))
    (h1 : isCommonPassword p c = false)
    (h2 : containsDictionaryWord p d = true) :
    modernCrackTime p c d =
      Except.ok (some (MTime.val (if searchEndAnchor lowSfxAlt p then 30 else 90))) := by
  unfold isCommonPassword at h1
  have h1m : normalizeLeetspeak p ∉ c := by simpa using h1
  unfold modernCrackTime
  cases hs : searchEndAnchor lowSfxAlt p <;> simp [h1m, h2, hs]

/-- Witness for the amended C4 at the concrete input "love123" with the
dictionary containing "love". -/
theorem c4_dictionary_suffix_witness :
    modernCrackTime (("love123").data) [] loveList =
      Except.ok (some (MTime.val 30)) := by
  have h := c4_dictionary_suffix_buckets (("love123").data) [] loveList
    (by decide) (by decide)
  rw [h]
  with_unfolding_all decide

/-- C5: `isCommonPassword` and `containsDictionaryWord` are insensitive
to case and leetspeak: each returns on a password exactly what it
returns on the normalized password, and "P4ss" behaves identically to
"pass" for every common list. -/
theorem c5_normalization_insensitive :
    (∀ (p : List Char) (wl : List (List Char)),
        isCommonPassword (normalizeLeetspeak p) wl = isCommonPassword p wl) ∧
    (∀ (p : List Char) (wl : List (List Char)),
        containsDictionaryWord (normalizeLeetspeak p) wl =
          containsDictionaryWord p wl) ∧
    (∀ wl : List (List Char),
        isCommonPassword (("P4ss").data) wl = isCommonPassword (("pass").data) wl) := by
  refine ⟨?_, ?_, ?_⟩
  · intro p wl
    unfold isCommonPassword
    rw [normalize_idem]
  · intro p wl
    unfold containsDictionaryWord
    rw [normalize_idem]
  · intro wl
    unfold isCommonPassword
    have h : normalizeLeetspeak (("P4ss").data) = normalizeLeetspeak (("pass").data) := by
      decide
    rw [h]

/-- C6: leetspeak normalization is idempotent — normalizing an already
normalized string changes nothing. -/
theorem c6_normalize_idempotent :
    ∀ p : List Char, normalizeLeetspeak (normalizeLeetspeak p) = normalizeLeetspeak p :=
  normalize_idem

/-- C7: under the claim's preconditions (not a common-password match,
no dictionary word contained), analyzing "Summer2023" reaches the
year-token branch — the weak-keyword regex does not match the
normalized form "summer2o2e", the raw password contains the year token
2023 — and `modernCrackTime` returns 45. -/
theorem c7_summer2023_year_branch (c d : List (List Char))
    (h1 : isCommonPassword (("Summer2023").data) c = false)
    (h2 : containsDictionaryWord (("Summer2023").data) d = false) :
    modernCrackTime (("Summer2023").data) c d = Except.ok (some (MTime.val 45)) := by
  unfold isCommonPassword at h1
  have h1m : normalizeLeetspeak (("Summer2023").data) ∉ c := by simpa using h1
  have h3 : weakKeywordMatch (normalizeLeetspeak (("Summer2023").data)) = false := by
    decide
  have h4 : yearSearch (("Summer2023").data) = true := by decide
  unfold modernCrackTime
  simp [h1m, h2, h3, h4]

/-- Witness for C7 with both wordlists empty. -/
theorem c7_summer2023_witness :
    modernCrackTime (("Summer2023").data) [] [] = Except.ok (some (MTime.val 45)) :=
  c7_summer2023_year_branch [] [] (by decide) (by decide)

/-- C8: the formatter agrees with the spec's description for every
duration — below 4 seconds it renders 4 decimals with unit "seconds",
otherwise it scales through the factor chain stopping at the first unit
whose divisor exceeds the remaining value (or after exhausting the
chain) and renders 2 decimals with the matched unit — and on the spec's
examples, 3.5 seconds renders as "3.5000 seconds" and 90 seconds as
"1.50 minutes". -/
theorem c8_time_formatter_spec :
    (∀ s : ℚ, timeFormat s = some (timeFormatSpec s)) ∧
    timeFormat ((7 : ℚ) / 2) = some ("3.5000 seconds") ∧
    timeFormat 90 = some ("1.50 minutes") := by
  refine ⟨?_, by with_unfolding_all decide, by with_unfolding_all decide⟩
  intro s
  unfold timeFormat timeFormatSpec
  by_cases h4 : s < 4
  · simp [h4]
  · simp only [h4, if_false]
    by_cases h1 : s < 60
    · have h1n : ¬ (60 : ℚ) ≤ s := not_le.mpr h1
      simp [timeLoop, specScale, factors, specFactorChain, units, h1, h1n]
    · have h1y : (60 : ℚ) ≤ s := not_lt.mp h1
      by_cases h2 : s / 60 < 60
      · have h2n : ¬ (60 : ℚ) ≤ s / 60 := not_le.mpr h2
        simp [timeLoop, specScale, factors, specFactorChain, units, h1, h1y, h2, h2n]
      · have h2y : (60 : ℚ) ≤ s / 60 := not_lt.mp h2
        by_cases h3 : s / 60 / 60 < 24
        · have h3n : ¬ (24 : ℚ) ≤ s / 60 / 60 := not_le.mpr h3
          simp [timeLoop, specScale, factors, specFactorChain, units,
            h1, h1y, h2, h2y, h3, h3n]
        · have h3y : (24 : ℚ) ≤ s / 60 / 60 := not_lt.mp h3
          by_cases h5 : s / 60 / 60 / 24 < 365
          · have h5n : ¬ (365 : ℚ) ≤ s / 60 / 60 / 24 := not_le.mpr h5
            simp [timeLoop, specScale, factors, specFactorChain, units,
              h1, h1y, h2, h2y, h3, h3y, h5, h5n]
          · have h5y : (365 : ℚ) ≤ s / 60 / 60 / 24 := not_lt.mp h5
            by_cases h6 : s / 60 / 60 / 24 / 365 < 100
            · have h6n : ¬ (100 : ℚ) ≤ s / 60 / 60 / 24 / 365 := not_le.mpr h6
              simp [timeLoop, specScale, factors, specFactorChain, units,
                h1, h1y, h2, h2y, h3, h3y, h5, h5y, h6, h6n]
            · have h6y : (100 : ℚ) ≤ s / 60 / 60 / 24 / 365 := not_lt.mp h6
              simp [timeLoop, specScale, factors, specFactorChain, units,
                h1, h1y, h2, h2y, h3, h3y, h5, h5y, h6, h6y]

/-- C9: the output of `normalizeLeetspeak` never contains any of the
eight substituted characters and never contains an ASCII uppercase
letter — the invariant that makes normalization idempotent and
comparison against lowercased wordlists well defined. -/
theorem c9_normalized_invariant :
    ∀ p : List Char,
      (normalizeLeetspeak p).all
        (fun c => !(leetKeys.contains c) && !(isUpperAlpha c)) = true := by
  intro p
  rw [normalize_eq_map, List.all_eq_true]
  intro c hc
  rw [List.mem_map] at hc
  obtain ⟨a, _, rfl⟩ := hc
  have h1 := normChar_not_key a
  have h2 := normChar_not_upper a
  have hm : normChar a ∉ leetKeys := fun hk => h1 _ hk rfl
  simp [h2, hm]

/-- C10: `timeFormat` is total and its unit lookup is always in bounds:
the loop index ends at most at 5, within the 6-entry unit table, so a
formatted string is always produced (the `IndexError` case of the model
is unreachable). -/
theorem c10_time_format_total :
    ∀ s : ℚ, (timeLoop s factors 0).2 ≤ 5 ∧ (timeFormat s).isSome = true := by
  intro s
  have hb : (timeLoop s factors 0).2 ≤ 5 := by
    have h := timeLoop_snd_le factors s 0
    simpa [factors] using h
  refine ⟨hb, ?_⟩
  unfold timeFormat
  by_cases h4 : s < 4
  · simp [h4]
  · simp only [h4, if_false]
    cases hg : units[(timeLoop s factors 0).2]? with
    | some u => simp [hg]
    | none =>
        rw [List.getElem?_eq_none_iff] at hg
        simp only [units, List.length_cons, List.length_nil] at hg
        omega

end PSA
